import Mathlib

/-!
Verification of the natural-language specification of the `ifc-viewer-thatopen`
repository against its source (`src/main.ts` and its later revision).  The
viewer is a browser application layered on the ThatOpen BIM library and
Three.js; the definitions below are a shallow embedding of the viewer's own
functions.  Coordinates are modelled by rationals (the source uses JS numbers;
none of the verified properties depends on floating-point rounding), library
calls are modelled as explicit data (the command or call-record the viewer
hands to the library), and DOM state is modelled by the booleans the code
toggles.
-/

namespace IfcViewer

/-- Three-component vector, the embedding of `THREE.Vector3`. -/
structure Vec3 where
  x : ℚ
  y : ℚ
  z : ℚ
deriving DecidableEq, Repr

/-- Axis-aligned box, the embedding of `THREE.Box3`. -/
structure Box3 where
  min : Vec3
  max : Vec3
deriving DecidableEq, Repr

/-- `THREE.Box3.getCenter`: the midpoint of the box. -/
def Box3.center (b : Box3) : Vec3 :=
  ⟨(b.min.x + b.max.x) / 2, (b.min.y + b.max.y) / 2, (b.min.z + b.max.z) / 2⟩

/-- `THREE.Box3.getSize`: componentwise extent of the box. -/
def Box3.size (b : Box3) : Vec3 :=
  ⟨b.max.x - b.min.x, b.max.y - b.min.y, b.max.z - b.min.z⟩

/-- `THREE.Box3.isEmpty`: true when some max component is below the min. -/
def Box3.isEmpty (b : Box3) : Prop :=
  b.max.x < b.min.x ∨ b.max.y < b.min.y ∨ b.max.z < b.min.z

instance (b : Box3) : Decidable b.isEmpty := by
  unfold Box3.isEmpty; infer_instance

/-- Squared Euclidean length of a vector.  The source compares
`size.length()` against the constants `0.1` and `10000`; comparing the
squared length against the squared constants is an exact translation. -/
def Vec3.normSq (v : Vec3) : ℚ :=
  v.x * v.x + v.y * v.y + v.z * v.z

/-- A storey view created through `views.create(normal, point, ...)` or
returned by the library's `views.createFromIfcStoreys`. -/
structure FloorView where
  normal : Vec3
  point : Vec3
deriving DecidableEq, Repr

/-- `Math.max(1, Math.ceil(height / 3))` from the manual-views fallback of
`generateFloorPlans` ("assume ~3m per floor"). -/
def numFloors (height : ℚ) : Nat :=
  (max 1 ⌈height / 3⌉).toNat

/-- The manual floor views `generateFloorPlans` builds when the library
returned no IFC storey views: one downward-looking view per computed floor at
`box.min.y + i*floorHeight + floorHeight/2` (raised by the 1.5 offset), plus
a top view at `box.max.y + 2`. -/
def manualFloorViews (box : Box3) : List FloorView :=
  let center := box.center
  let height := box.size.y
  let n := numFloors height
  let floorHeight := height / n
  ((List.range n).map (fun (i : Nat) =>
    let elevation := box.min.y + (i : ℚ) * floorHeight + floorHeight / 2
    ({ normal := ⟨0, -1, 0⟩, point := ⟨center.x, elevation + 3/2, center.z⟩ } : FloorView)))
  ++ [{ normal := ⟨0, -1, 0⟩, point := ⟨center.x, box.max.y + 2, center.z⟩ }]

/-- The floor views held in `floorViews` after `generateFloorPlans` runs:
the library's `createFromIfcStoreys` result when it is nonempty (a thrown
library error is modelled as the empty list, exactly the state the catch
leaves behind), otherwise the manual views computed from the model's
bounding box. -/
def generateFloorPlansViews (ifcViews : List FloorView) (box : Box3) : List FloorView :=
  if ifcViews.length > 0 then ifcViews else manualFloorViews box

/-- The camera command issued by a framing code path: nothing, the library
pass-through `fitToSphere`, or an explicit `setLookAt` with a position and
target computed by the viewer. -/
inductive CameraCommand where
  | idle
  | fitToSphere
  | setLookAt (position target : Vec3)
deriving DecidableEq, Repr

/-- `frameModel` from the revised source: returns without acting on an empty
box; falls back to the library's `fitToSphere` when the diagonal length is
below 0.1 or above 10000; otherwise computes `distance = 1.8 * maxDim`,
an offset `(0.6, 0.4, 0.8) * distance`, and calls `setLookAt` at
`center + offset` targeting the center. -/
def frameModel (box : Box3) : CameraCommand :=
  if box.isEmpty then CameraCommand.idle
  else
    let size := box.size
    let center := box.center
    if size.normSq < 1/100 ∨ size.normSq > 100000000 then CameraCommand.fitToSphere
    else
      let maxDim := max size.x (max size.y size.z)
      let distance := maxDim * 9/5
      let offset : Vec3 := ⟨distance * 3/5, distance * 2/5, distance * 4/5⟩
      CameraCommand.setLookAt
        ⟨center.x + offset.x, center.y + offset.y, center.z + offset.z⟩ center

/-- The framing performed by the `fragments.list.onItemSet` handler of
`src/main.ts` (line 63): a direct `fitToSphere(model.object, true)`. -/
def onItemSetFraming : CameraCommand := CameraCommand.fitToSphere

/-! ## IFC file loading (`loadIfcFromFile`, drag-and-drop) -/

/-- A file as the browser hands it to the viewer: a name and its bytes. -/
structure IfcFile where
  name : String
  contents : List Nat
deriving DecidableEq, Repr

/-- `file.arrayBuffer()`: the file's raw bytes. -/
def fileArrayBuffer (f : IfcFile) : List Nat := f.contents

/-- `new Uint8Array(data)`: a byte view over the buffer, same bytes. -/
def uint8ArrayOf (data : List Nat) : List Nat := data

/-- JS `String.replace(pat, repl)` with a string pattern replaces only the
first occurrence. -/
def replaceFirst (s pat repl : String) : String :=
  match s.splitOn pat with
  | [] => s
  | [_] => s
  | p :: q :: rest => p ++ repl ++ String.intercalate pat (q :: rest)

/-- The argument record of the single `ifcLoader.load(buffer, false, name, ...)`
call in `loadIfcFromFile`. -/
structure LoadCall where
  bytes : List Nat
  coordinate : Bool
  modelName : String
deriving DecidableEq, Repr

/-- Whether the library's `ifcLoader.load` resolves or throws. -/
inductive LoadOutcome where
  | success
  | failure
deriving DecidableEq, Repr

/-- The mutable state `loadIfcFromFile` touches: the `isLoading` flag and
whether the loading overlay is displayed. -/
structure LoaderState where
  isLoading : Bool
  overlayVisible : Bool
deriving DecidableEq, Repr

/-- Result of a `loadIfcFromFile` call: the final state, the `ifcLoader.load`
call it made (if any), and whether the error alert was shown. -/
structure LoadResult where
  state : LoaderState
  loadCall : Option LoadCall
  alertShown : Bool
deriving DecidableEq, Repr

/-- `loadIfcFromFile`: returns at once if `isLoading`; otherwise sets the
flag, shows the overlay, reads the file bytes into a `Uint8Array`, hands them
to `ifcLoader.load` with `coordinate = false` and the file name minus its
first `.ifc`; the catch block shows an alert on a thrown load, and the
finally block hides the overlay and clears `isLoading` on every path. -/
def loadIfcFromFile (st : LoaderState) (f : IfcFile) (outcome : LoadOutcome) : LoadResult :=
  if st.isLoading then
    { state := st, loadCall := Option.none, alertShown := false }
  else
    let buffer := uint8ArrayOf (fileArrayBuffer f)
    let call : LoadCall :=
      { bytes := buffer, coordinate := false, modelName := replaceFirst f.name ".ifc" "" }
    { state := { isLoading := false, overlayVisible := false },
      loadCall := Option.some call,
      alertShown := match outcome with | LoadOutcome.failure => true | LoadOutcome.success => false }

/-- The `drop` event handler: takes the first dropped file, calls
`loadIfcFromFile` on it when its lowercased name ends in `.ifc`, and only
alerts otherwise (modelled as no load result). -/
def dropHandler (st : LoaderState) (f : IfcFile) (outcome : LoadOutcome) : Option LoadResult :=
  if (f.name.toLower).endsWith ".ifc" then Option.some (loadIfcFromFile st f outcome)
  else Option.none

/-! ## Classification (`processClassifications`) -/

/-- The classifier's stored groupings, `classifier.list`: classification name
to groups, each group a name with the id lists of its items map. -/
structure ClassifierState where
  list : List (String × List (String × List (List Nat)))
deriving DecidableEq, Repr

/-- `processClassifications`: returns untouched when no model is loaded;
otherwise the new classifier state is exactly the library's
`byIfcBuildingStorey` followed by its `byCategory` (the handlers are passed
in abstractly since the library is the excluded dependency); the function
itself writes nothing into the classifier. -/
def processClassifications (models : List String)
    (byIfcBuildingStorey byCategory : ClassifierState → ClassifierState)
    (st : ClassifierState) : ClassifierState :=
  match models with
  | [] => st
  | _ :: _ => byCategory (byIfcBuildingStorey st)

/-! ## Clipping box (`createClippingBox`) -/

/-- A clipping plane as handed to
`clipper.createFromNormalAndCoplanarPoint(world, normal, point)`. -/
structure ClipPlane where
  normal : Vec3
  point : Vec3
deriving DecidableEq, Repr

/-- The `margin = 0.5` constant of `createClippingBox`. -/
def clippingMargin : ℚ := 1/2

/-- The six `createFromNormalAndCoplanarPoint` calls of `createClippingBox`,
in source order (top, bottom, front, back, right, left), computed from the
model's bounding box and its center. -/
def createClippingBox (box : Box3) : List ClipPlane :=
  let center := box.center
  let margin := clippingMargin
  [ ⟨⟨0, -1, 0⟩, ⟨center.x, box.max.y + margin, center.z⟩⟩,
    ⟨⟨0, 1, 0⟩, ⟨center.x, box.min.y - margin, center.z⟩⟩,
    ⟨⟨0, 0, -1⟩, ⟨center.x, center.y, box.max.z + margin⟩⟩,
    ⟨⟨0, 0, 1⟩, ⟨center.x, center.y, box.min.z - margin⟩⟩,
    ⟨⟨-1, 0, 0⟩, ⟨box.max.x + margin, center.y, center.z⟩⟩,
    ⟨⟨1, 0, 0⟩, ⟨box.min.x - margin, center.y, center.z⟩⟩ ]

/-- The box grown by a margin `m` on every side. -/
def Box3.expand (b : Box3) (m : ℚ) : Box3 :=
  ⟨⟨b.min.x - m, b.min.y - m, b.min.z - m⟩, ⟨b.max.x + m, b.max.y + m, b.max.z + m⟩⟩

/-- The spec's property of one plane: its coplanar point lies on a face of
the box `b` and its normal is that face's inward-pointing axis-aligned unit
normal. -/
def onFaceInward (b : Box3) (pl : ClipPlane) : Prop :=
  (pl.normal = ⟨0, -1, 0⟩ ∧ pl.point.y = b.max.y ∧
    b.min.x ≤ pl.point.x ∧ pl.point.x ≤ b.max.x ∧ b.min.z ≤ pl.point.z ∧ pl.point.z ≤ b.max.z) ∨
  (pl.normal = ⟨0, 1, 0⟩ ∧ pl.point.y = b.min.y ∧
    b.min.x ≤ pl.point.x ∧ pl.point.x ≤ b.max.x ∧ b.min.z ≤ pl.point.z ∧ pl.point.z ≤ b.max.z) ∨
  (pl.normal = ⟨0, 0, -1⟩ ∧ pl.point.z = b.max.z ∧
    b.min.x ≤ pl.point.x ∧ pl.point.x ≤ b.max.x ∧ b.min.y ≤ pl.point.y ∧ pl.point.y ≤ b.max.y) ∨
  (pl.normal = ⟨0, 0, 1⟩ ∧ pl.point.z = b.min.z ∧
    b.min.x ≤ pl.point.x ∧ pl.point.x ≤ b.max.x ∧ b.min.y ≤ pl.point.y ∧ pl.point.y ≤ b.max.y) ∨
  (pl.normal = ⟨-1, 0, 0⟩ ∧ pl.point.x = b.max.x ∧
    b.min.y ≤ pl.point.y ∧ pl.point.y ≤ b.max.y ∧ b.min.z ≤ pl.point.z ∧ pl.point.z ≤ b.max.z) ∨
  (pl.normal = ⟨1, 0, 0⟩ ∧ pl.point.x = b.min.x ∧
    b.min.y ≤ pl.point.y ∧ pl.point.y ≤ b.max.y ∧ b.min.z ≤ pl.point.z ∧ pl.point.z ≤ b.max.z)

instance (b : Box3) (pl : ClipPlane) : Decidable (onFaceInward b pl) := by
  unfold onFaceInward; infer_instance

/-! ## Rendering setup (`world` configuration and `createViewCube`) -/

/-- The library components the main world is wired with (source lines
21-26): `OBC.SimpleScene`, `OBC.OrthoPerspectiveCamera`,
`OBCF.PostproductionRenderer`. -/
inductive LibraryComponent where
  | simpleScene
  | orthoPerspectiveCamera
  | postproductionRenderer
deriving DecidableEq, Repr

/-- The scene, camera and renderer assigned to the main world. -/
structure WorldConfig where
  scene : LibraryComponent
  camera : LibraryComponent
  renderer : LibraryComponent
deriving DecidableEq, Repr

/-- The main world setup: every slot is a library component. -/
def worldSetup : WorldConfig :=
  { scene := LibraryComponent.simpleScene,
    camera := LibraryComponent.orthoPerspectiveCamera,
    renderer := LibraryComponent.postproductionRenderer }

/-- Three.js objects a viewer function constructs directly with `new THREE.*`. -/
inductive ThreeConstruction where
  | scene
  | orthographicCamera
  | webGLRenderer
  | canvasTexture
  | meshBasicMaterial
  | boxGeometry
  | mesh
  | axesHelper
  | raycaster
deriving DecidableEq, Repr

/-- The direct Three.js constructions performed by `createViewCube`, in
source order: the cube scene, its orthographic camera, its own
`WebGLRenderer`, six face textures with their materials, the cube geometry
and mesh, an axes helper, and a raycaster. -/
def viewCubeConstructions : List ThreeConstruction :=
  [ ThreeConstruction.scene,
    ThreeConstruction.orthographicCamera,
    ThreeConstruction.webGLRenderer,
    ThreeConstruction.canvasTexture, ThreeConstruction.meshBasicMaterial,
    ThreeConstruction.canvasTexture, ThreeConstruction.meshBasicMaterial,
    ThreeConstruction.canvasTexture, ThreeConstruction.meshBasicMaterial,
    ThreeConstruction.canvasTexture, ThreeConstruction.meshBasicMaterial,
    ThreeConstruction.canvasTexture, ThreeConstruction.meshBasicMaterial,
    ThreeConstruction.canvasTexture, ThreeConstruction.meshBasicMaterial,
    ThreeConstruction.boxGeometry,
    ThreeConstruction.mesh,
    ThreeConstruction.axesHelper,
    ThreeConstruction.raycaster ]

/-- What `createViewCube` sets up: its own Three.js constructions, and the
fact that it registers `updateViewCube` (which calls
`cubeRenderer.render(cubeScene, cubeCamera)`) on the library renderer's
`onAfterUpdate` event, so the cube is re-rendered after every library frame. -/
structure ViewCubeSetup where
  constructions : List ThreeConstruction
  rendersOnLibraryAfterUpdate : Bool
deriving DecidableEq, Repr

/-- The embedding of `createViewCube` (revised source lines 1707-1884). -/
def createViewCube : ViewCubeSetup :=
  { constructions := viewCubeConstructions, rendersOnLibraryAfterUpdate := true }

/-! ## Visibility filters (`applyFilters`) -/

/-- A classification's groups as `applyFilters` reads them: group name to
the id lists of the group's items map (`Object.values(itemsMap)`). -/
abbrev GroupMap := List (String × List (List Nat))

/-- `Map.get` on a filter-state map: `some` checked-state, or `none` when
the name was never recorded (JS `undefined`). -/
def lookupFilter (fs : List (String × Bool)) (name : String) : Option Bool :=
  (fs.find? (fun p => p.1 == name)).map (fun p => p.2)

/-- `model.setVisible(ids, b)`: set the visibility of every listed id. -/
def setVisible (ids : List Nat) (b : Bool) (vis : Nat → Bool) : Nat → Bool :=
  fun e => if e ∈ ids then b else vis e

/-- The inner loop over `Object.values(itemsMap)` of one group, hiding each
id list. -/
def hideGroup (idLists : List (List Nat)) (vis : Nat → Bool) : Nat → Bool :=
  idLists.foldl (fun v ids => setVisible ids false v) vis

/-- One hiding pass of `applyFilters`: for every group whose filter state is
not `true` (unchecked or unknown, since JS `!undefined` is `true`), hide its
elements. -/
def hideUnchecked (groups : GroupMap) (fs : List (String × Bool))
    (vis : Nat → Bool) : Nat → Bool :=
  groups.foldl
    (fun v g => if lookupFilter fs g.1 = Option.some true then v else hideGroup g.2 v) vis

/-- All ids collected from the storey groups (`allIds`). -/
def allStoreyIds (storeys : GroupMap) : List Nat :=
  ((storeys.map (fun g => g.2)).flatten).flatten

/-- `applyFilters`: with a model loaded, collect every id of every storey
group and show them all (the show-all pass runs only when `allIds` is
nonempty), then hide each unchecked storey group, then hide each unchecked
category group; `classifier.list.get` may find no classification, hence the
`Option` arguments. -/
def applyFilters (modelLoaded : Bool) (storeys categories : Option GroupMap)
    (fs fc : List (String × Bool)) (vis : Nat → Bool) : Nat → Bool :=
  if modelLoaded then
    let allIds := match storeys with
      | Option.none => []
      | Option.some gs => allStoreyIds gs
    let v1 := if allIds.length > 0 then setVisible allIds true vis else vis
    let v2 := match storeys with
      | Option.none => v1
      | Option.some gs => hideUnchecked gs fs v1
    match categories with
    | Option.none => v2
    | Option.some gc => hideUnchecked gc fc v2
  else vis

/-! ## Ground-floor normalization (`adjustModelToLevel0`, `getStoreyElevation`) -/

/-- The attribute record of one building storey as the viewer reads it:
`Name.value` and `Elevation.value` when the guarded property accesses
succeed. -/
structure StoreyAttributes where
  name : Option String
  elevation : Option ℚ
deriving DecidableEq, Repr

/-- One iteration of the minimum-elevation scan of `adjustModelToLevel0`:
a record without an `Elevation` leaves the accumulator alone; one with an
elevation below the current minimum (strictly, as in `elevation <
minElevation`) replaces it, the starting `Infinity` modelled as `none`. -/
def minElevStep (acc : Option ℚ) (a : StoreyAttributes) : Option ℚ :=
  match a.elevation with
  | Option.none => acc
  | Option.some e =>
    match acc with
    | Option.none => Option.some e
    | Option.some m => if e < m then Option.some e else Option.some m

/-- The minimum-elevation scan of `adjustModelToLevel0` over all storey
records. -/
def minElevationOf (data : List StoreyAttributes) : Option ℚ :=
  data.foldl minElevStep Option.none

/-- The state `adjustModelToLevel0` writes: the model object's Y position
and the recorded `baseElevationOffset`. -/
structure ModelAdjustState where
  positionY : ℚ
  baseElevationOffset : ℚ
deriving DecidableEq, Repr

/-- `adjustModelToLevel0`: with no storey items the model keeps its position;
with storeys but no `Elevation` attribute (`minElevation` stays `Infinity`)
it also keeps its position; otherwise it sets
`position.y = -(coordHeight + minElevation)` and records the minimum as
`baseElevationOffset`. -/
def adjustModelToLevel0 (coordHeight : ℚ) (data : List StoreyAttributes)
    (st : ModelAdjustState) : ModelAdjustState :=
  match data with
  | [] => st
  | _ :: _ =>
    match minElevationOf data with
    | Option.none => st
    | Option.some m => { positionY := -(coordHeight + m), baseElevationOffset := m }

/-- `getStoreyElevation(name)`: find the first storey record whose
`Name.value` equals `name`; return 0 when none matches or the match has no
`Elevation`; otherwise return its elevation minus `baseElevationOffset`. -/
def getStoreyElevation (storeyData : List StoreyAttributes) (baseElevationOffset : ℚ)
    (name : String) : ℚ :=
  match storeyData.find? (fun a => a.name == Option.some name) with
  | Option.none => 0
  | Option.some st =>
    match st.elevation with
    | Option.none => 0
    | Option.some e => e - baseElevationOffset

/-! ## Concrete inputs used by counterexamples and witnesses -/

/-- A 10 x 7 x 10 model bounding box. -/
def cexBox : Box3 := ⟨⟨0, 0, 0⟩, ⟨10, 7, 10⟩⟩

/-- A 10 x 10 x 10 model bounding box. -/
def frameBox : Box3 := ⟨⟨0, 0, 0⟩, ⟨10, 10, 10⟩⟩

/-- The unit bounding box. -/
def unitBox : Box3 := ⟨⟨0, 0, 0⟩, ⟨1, 1, 1⟩⟩

/-- A sample library-produced storey view. -/
def demoView : FloorView := ⟨⟨0, -1, 0⟩, ⟨0, 5, 0⟩⟩

/-- A sample IFC file. -/
def demoFile : IfcFile := ⟨"model.ifc", [73, 83, 79, 45]⟩

/-- A sample library `byIfcBuildingStorey` behaviour. -/
def demoByStorey : ClassifierState → ClassifierState :=
  fun st => ⟨("Storeys", [("Terreo", [[1, 2]])]) :: st.list⟩

/-- A sample library `byCategory` behaviour. -/
def demoByCategory : ClassifierState → ClassifierState :=
  fun st => ⟨("Categories", [("IFCWALL", [[2]])]) :: st.list⟩

/-- Sample storey groups. -/
def demoStoreys : GroupMap := [("Terreo", [[1, 2]]), ("Nivel1", [[3]])]

/-- Sample category groups. -/
def demoCategories : GroupMap := [("IFCWALL", [[2], [3]]), ("IFCSPACE", [[4]])]

/-- Sample storey filter states. -/
def demoFs : List (String × Bool) := [("Terreo", true), ("Nivel1", false)]

/-- Sample category filter states. -/
def demoFc : List (String × Bool) := [("IFCWALL", true), ("IFCSPACE", false)]

/-- Sample storey attribute records. -/
def demoStoreyData : List StoreyAttributes :=
  [⟨Option.some "Nivel1", Option.some 3⟩,
   ⟨Option.some "Terreo", Option.some (-2)⟩,
   ⟨Option.some "Cobertura", Option.none⟩]

/-! ## Helper lemmas -/

/-- The manual fallback always yields one view per computed floor plus the
top view. -/
theorem manualFloorViews_length (b : Box3) :
    (manualFloorViews b).length = numFloors b.size.y + 1 := by
  simp [manualFloorViews]

/-- Ceiling of 7/3 is 3. -/
theorem ceil_seven_thirds : (⌈(7 : ℚ) / 3⌉ : ℤ) = 3 := by
  rw [Int.ceil_eq_iff]
  norm_num

/-- `numFloors` at height 7. -/
theorem numFloors_seven : numFloors 7 = 3 := by
  unfold numFloors
  rw [ceil_seven_thirds]
  decide

/-! ## Claim theorems -/

/-- Claim C1, counterexample: with the library returning no IFC storey views
and a 10 x 7 x 10 bounding box, `generateFloorPlans` does not leave the floor
views to the library: repository code computes `max 1 (ceil (7/3)) = 3`
floors and their elevations itself and produces four views (three floors plus
the top view), so floor-plan generation does compute elevations and floor
counts in repository code. -/
theorem floorPlans_fallback_nonempty_cex :
    generateFloorPlansViews [] cexBox ≠ [] ∧
    (generateFloorPlansViews [] cexBox).length = 4 := by
  have h7 : cexBox.size.y = 7 := by norm_num [cexBox, Box3.size]
  have hgen : generateFloorPlansViews [] cexBox = manualFloorViews cexBox := by
    simp [generateFloorPlansViews]
  have hlen : (generateFloorPlansViews [] cexBox).length = 4 := by
    rw [hgen, manualFloorViews_length, h7, numFloors_seven]
  exact ⟨fun hnil => by rw [hnil] at hlen; exact absurd hlen (by decide), hlen⟩

/-- Claim C1, amended: floor-plan generation is a pass-through exactly when
the library's `createFromIfcStoreys` returns at least one view; when it
returns none the viewer itself computes the floor count
`max 1 (ceil (height/3))` and per-floor elevations from the model's bounding
box in repository code (and similarly `adjustModelToLevel0` computes the
repositioning offset, see the C10 theorem). -/
theorem floorPlans_pass_through_or_computed (ifcViews : List FloorView) (box : Box3) :
    (ifcViews ≠ [] → generateFloorPlansViews ifcViews box = ifcViews) ∧
    (ifcViews = [] → generateFloorPlansViews ifcViews box = manualFloorViews box ∧
      (generateFloorPlansViews ifcViews box).length = numFloors box.size.y + 1) := by
  constructor
  · intro h
    have hpos : ifcViews.length > 0 := List.length_pos.mpr h
    simp [generateFloorPlansViews, hpos]
  · rintro rfl
    refine ⟨by simp [generateFloorPlansViews], ?_⟩
    simp [generateFloorPlansViews, manualFloorViews_length]

/-- Witness for the C1 theorem at concrete inputs. -/
theorem floorPlans_pass_through_or_computed_witness :
    ([demoView] ≠ ([] : List FloorView) ∧
      generateFloorPlansViews [demoView] unitBox = [demoView]) ∧
    (([] : List FloorView) = [] ∧
      (generateFloorPlansViews [] unitBox = manualFloorViews unitBox ∧
        (generateFloorPlansViews [] unitBox).length = numFloors unitBox.size.y + 1)) :=
  ⟨⟨by simp, (floorPlans_pass_through_or_computed [demoView] unitBox).1 (by simp)⟩,
   ⟨rfl, (floorPlans_pass_through_or_computed [] unitBox).2 rfl⟩⟩

/-- Claim C2, counterexample: on a loaded 10 x 10 x 10 model, `frameModel`
issues a `setLookAt` whose position the viewer computed from the model's
dimensions (distance 1.8 x 10, offset (0.6, 0.4, 0.8) x distance) instead of
a library framing pass-through. -/
theorem frameModel_computes_position_cex :
    frameModel frameBox =
      CameraCommand.setLookAt ⟨79/5, 61/5, 97/5⟩ ⟨5, 5, 5⟩ ∧
    frameModel frameBox ≠ CameraCommand.fitToSphere ∧
    frameModel frameBox ≠ CameraCommand.idle := by
  have h : frameModel frameBox =
      CameraCommand.setLookAt ⟨79/5, 61/5, 97/5⟩ ⟨5, 5, 5⟩ := by
    norm_num [frameModel, frameBox, Box3.isEmpty, Box3.size, Box3.center, Vec3.normSq]
  refine ⟨h, ?_, ?_⟩ <;> rw [h] <;> intro hc <;> cases hc

/-- Claim C2, amended: the `onItemSet` framing of `src/main.ts` is a library
`fitToSphere` pass-through; `frameModel` returns without any camera call on
an empty bounding box and falls back to `fitToSphere` when the model
diagonal is below 0.1 or above 10000; but for a model of ordinary size
`frameModel` itself computes the camera position
`center + 1.8 * maxDim * (0.6, 0.4, 0.8)` and target from the model's
dimensions. -/
theorem frameModel_framing_behaviour (b : Box3) :
    onItemSetFraming = CameraCommand.fitToSphere ∧
    (b.isEmpty → frameModel b = CameraCommand.idle) ∧
    (¬ b.isEmpty → (b.size.normSq < 1/100 ∨ b.size.normSq > 100000000) →
      frameModel b = CameraCommand.fitToSphere) ∧
    (¬ b.isEmpty → ¬ (b.size.normSq < 1/100 ∨ b.size.normSq > 100000000) →
      frameModel b = CameraCommand.setLookAt
        ⟨b.center.x + max b.size.x (max b.size.y b.size.z) * 9/5 * 3/5,
         b.center.y + max b.size.x (max b.size.y b.size.z) * 9/5 * 2/5,
         b.center.z + max b.size.x (max b.size.y b.size.z) * 9/5 * 4/5⟩
        b.center) := by
  refine ⟨rfl, fun h => ?_, fun h hr => ?_, fun h hr => ?_⟩
  · simp [frameModel, h]
  · simp only [frameModel, if_neg (by simpa using h)]
    rw [if_pos hr]
  · simp only [frameModel, if_neg (by simpa using h)]
    rw [if_neg hr]

/-- Witness for the C2 theorem at a 10 x 10 x 10 box. -/
theorem frameModel_framing_behaviour_witness :
    ¬ frameBox.isEmpty ∧
    ¬ (frameBox.size.normSq < 1/100 ∨ frameBox.size.normSq > 100000000) ∧
    frameModel frameBox = CameraCommand.setLookAt
      ⟨frameBox.center.x + max frameBox.size.x (max frameBox.size.y frameBox.size.z) * 9/5 * 3/5,
       frameBox.center.y + max frameBox.size.x (max frameBox.size.y frameBox.size.z) * 9/5 * 2/5,
       frameBox.center.z + max frameBox.size.x (max frameBox.size.y frameBox.size.z) * 9/5 * 4/5⟩
      frameBox.center := by
  have h1 : ¬ frameBox.isEmpty := by norm_num [frameBox, Box3.isEmpty]
  have h2 : ¬ (frameBox.size.normSq < 1/100 ∨ frameBox.size.normSq > 100000000) := by
    norm_num [frameBox, Box3.size, Vec3.normSq]
  exact ⟨h1, h2, ((frameModel_framing_behaviour frameBox).2.2.2) h1 h2⟩

/-- Claim C3: whenever `loadIfcFromFile` (reached from the file input or,
for `.ifc` files, from the drop handler) hands bytes to `ifcLoader.load`,
those bytes are exactly the file's contents; the viewer transforms nothing
on the way in. -/
theorem ifc_bytes_passed_unchanged (st : LoaderState) (f : IfcFile) (o : LoadOutcome) :
    (∀ c, (loadIfcFromFile st f o).loadCall = Option.some c → c.bytes = f.contents) ∧
    (∀ r, dropHandler st f o = Option.some r →
      ∀ c, r.loadCall = Option.some c → c.bytes = f.contents) := by
  have hmain : ∀ c, (loadIfcFromFile st f o).loadCall = Option.some c → c.bytes = f.contents := by
    intro c hc
    unfold loadIfcFromFile at hc
    by_cases h : st.isLoading
    · simp [h] at hc
    · simp only [h, if_false, Bool.false_eq_true, if_neg] at hc
      cases hc
      rfl
  refine ⟨hmain, fun r hr c hc => ?_⟩
  unfold dropHandler at hr
  by_cases h : (f.name.toLower).endsWith ".ifc"
  · rw [if_pos h] at hr
    cases hr
    exact hmain c hc
  · rw [if_neg h] at hr
    cases hr

/-- Witness for the C3 theorem on a concrete file. -/
theorem ifc_bytes_passed_unchanged_witness :
    (loadIfcFromFile ⟨false, false⟩ demoFile LoadOutcome.success).loadCall =
      Option.some ⟨demoFile.contents, false, replaceFirst demoFile.name ".ifc" ""⟩ ∧
    (⟨demoFile.contents, false, replaceFirst demoFile.name ".ifc" ""⟩ : LoadCall).bytes =
      demoFile.contents :=
  ⟨rfl, (ifc_bytes_passed_unchanged ⟨false, false⟩ demoFile LoadOutcome.success).1 _ rfl⟩

/-- Claim C4: `processClassifications` leaves the classifier untouched with
no model, and otherwise produces exactly the state the library's
`byIfcBuildingStorey` followed by `byCategory` produce: the viewer adds no
grouping of its own. -/
theorem processClassifications_pass_through (models : List String)
    (byS byC : ClassifierState → ClassifierState) (st : ClassifierState) :
    (models = [] → processClassifications models byS byC st = st) ∧
    (models ≠ [] → processClassifications models byS byC st = byC (byS st)) := by
  cases models <;> simp [processClassifications]

/-- Witness for the C4 theorem with one loaded model and sample library
behaviours. -/
theorem processClassifications_pass_through_witness :
    (["demo"] : List String) ≠ [] ∧
    processClassifications ["demo"] demoByStorey demoByCategory ⟨[]⟩ =
      demoByCategory (demoByStorey ⟨[]⟩) :=
  ⟨by simp,
   (processClassifications_pass_through ["demo"] demoByStorey demoByCategory ⟨[]⟩).2 (by simp)⟩

/-- Claim C5: for a loaded model with a well-formed bounding box,
`createClippingBox` hands the clipper exactly six
`createFromNormalAndCoplanarPoint` planes, each with an axis-aligned
inward-pointing unit normal and a coplanar point on the corresponding face
of the bounding box expanded by the 0.5 margin. -/
theorem createClippingBox_six_inward_planes (box : Box3)
    (hx : box.min.x ≤ box.max.x) (hy : box.min.y ≤ box.max.y) (hz : box.min.z ≤ box.max.z) :
    (createClippingBox box).length = 6 ∧
    ∀ pl ∈ createClippingBox box, onFaceInward (box.expand clippingMargin) pl := by
  refine ⟨rfl, ?_⟩
  intro pl hpl
  fin_cases hpl
  · refine Or.inl ⟨rfl, rfl, ?_, ?_, ?_, ?_⟩ <;>
      simp only [createClippingBox, Box3.expand, Box3.center, clippingMargin] <;> linarith
  · refine Or.inr (Or.inl ⟨rfl, rfl, ?_, ?_, ?_, ?_⟩) <;>
      simp only [createClippingBox, Box3.expand, Box3.center, clippingMargin] <;> linarith
  · refine Or.inr (Or.inr (Or.inl ⟨rfl, rfl, ?_, ?_, ?_, ?_⟩)) <;>
      simp only [createClippingBox, Box3.expand, Box3.center, clippingMargin] <;> linarith
  · refine Or.inr (Or.inr (Or.inr (Or.inl ⟨rfl, rfl, ?_, ?_, ?_, ?_⟩))) <;>
      simp only [createClippingBox, Box3.expand, Box3.center, clippingMargin] <;> linarith
  · refine Or.inr (Or.inr (Or.inr (Or.inr (Or.inl ⟨rfl, rfl, ?_, ?_, ?_, ?_⟩)))) <;>
      simp only [createClippingBox, Box3.expand, Box3.center, clippingMargin] <;> linarith
  · refine Or.inr (Or.inr (Or.inr (Or.inr (Or.inr ⟨rfl, rfl, ?_, ?_, ?_, ?_⟩)))) <;>
      simp only [createClippingBox, Box3.expand, Box3.center, clippingMargin] <;> linarith

/-- Witness for the C5 theorem at the unit box. -/
theorem createClippingBox_six_inward_planes_witness :
    (unitBox.min.x ≤ unitBox.max.x ∧ unitBox.min.y ≤ unitBox.max.y ∧
      unitBox.min.z ≤ unitBox.max.z) ∧
    (createClippingBox unitBox).length = 6 ∧
    ∀ pl ∈ createClippingBox unitBox, onFaceInward (unitBox.expand clippingMargin) pl := by
  have hx : unitBox.min.x ≤ unitBox.max.x := by norm_num [unitBox]
  have hy : unitBox.min.y ≤ unitBox.max.y := by norm_num [unitBox]
  have hz : unitBox.min.z ≤ unitBox.max.z := by norm_num [unitBox]
  exact ⟨⟨hx, hy, hz⟩, createClippingBox_six_inward_planes unitBox hx hy hz⟩

/-- Claim C6, counterexample: `createViewCube` constructs the viewer's own
`THREE.Scene`, `THREE.OrthographicCamera` and `THREE.WebGLRenderer`, and
re-renders the cube after every library frame, so rendering is not entirely
inside the library's renderer. -/
theorem viewCube_constructs_renderer_cex :
    ThreeConstruction.webGLRenderer ∈ createViewCube.constructions ∧
    ThreeConstruction.scene ∈ createViewCube.constructions ∧
    ThreeConstruction.orthographicCamera ∈ createViewCube.constructions ∧
    createViewCube.rendersOnLibraryAfterUpdate = true := by
  decide

/-- Claim C6, amended: the main world's scene, camera and renderer are all
library components, and the one exception to delegated rendering is the
view-cube overlay, which constructs exactly one scene, one orthographic
camera and one `WebGLRenderer` of its own and repaints the cube from the
library renderer's `onAfterUpdate` event (no separate animation loop of the
viewer's own). -/
theorem rendering_delegated_except_viewCube :
    worldSetup.scene = LibraryComponent.simpleScene ∧
    worldSetup.camera = LibraryComponent.orthoPerspectiveCamera ∧
    worldSetup.renderer = LibraryComponent.postproductionRenderer ∧
    createViewCube.constructions.count ThreeConstruction.webGLRenderer = 1 ∧
    createViewCube.constructions.count ThreeConstruction.scene = 1 ∧
    createViewCube.constructions.count ThreeConstruction.orthographicCamera = 1 ∧
    createViewCube.rendersOnLibraryAfterUpdate = true := by
  decide

/-- Claim C7, counterexample: `loadIfcFromFile` does perform concurrency
guarding of its own: with `isLoading` set the very same call makes no
library load and leaves the state untouched, while with `isLoading` clear
it performs the load. -/
theorem loadIfc_guard_cex :
    (loadIfcFromFile ⟨true, false⟩ demoFile LoadOutcome.success).loadCall = Option.none ∧
    (loadIfcFromFile ⟨false, false⟩ demoFile LoadOutcome.success).loadCall ≠ Option.none ∧
    (loadIfcFromFile ⟨true, false⟩ demoFile LoadOutcome.success).state = ⟨true, false⟩ := by
  refine ⟨rfl, ?_, rfl⟩
  intro h
  simp [loadIfcFromFile] at h

/-- Claim C7, amended: beyond registering callbacks, the viewer's only
concurrency control is the `isLoading` re-entrancy guard of
`loadIfcFromFile` (plus deferred scheduling of post-load work): a call is
dropped exactly when a load is already in progress, and otherwise issues
exactly one library load. -/
theorem loadIfc_reentrancy_guard_only (st : LoaderState) (f : IfcFile) (o : LoadOutcome) :
    (st.isLoading = true →
      loadIfcFromFile st f o = { state := st, loadCall := Option.none, alertShown := false }) ∧
    (st.isLoading = false → ∃ c, (loadIfcFromFile st f o).loadCall = Option.some c) := by
  constructor
  · intro h
    simp [loadIfcFromFile, h]
  · intro h
    exact ⟨⟨uint8ArrayOf (fileArrayBuffer f), false, replaceFirst f.name ".ifc" ""⟩,
      by simp [loadIfcFromFile, h]⟩

/-- Witness for the C7 theorem in both guard states. -/
theorem loadIfc_reentrancy_guard_only_witness :
    ((⟨true, false⟩ : LoaderState).isLoading = true ∧
      loadIfcFromFile ⟨true, false⟩ demoFile LoadOutcome.success =
        { state := ⟨true, false⟩, loadCall := Option.none, alertShown := false }) ∧
    ((⟨false, false⟩ : LoaderState).isLoading = false ∧
      ∃ c, (loadIfcFromFile ⟨false, false⟩ demoFile LoadOutcome.success).loadCall =
        Option.some c) :=
  ⟨⟨rfl, (loadIfc_reentrancy_guard_only ⟨true, false⟩ demoFile LoadOutcome.success).1 rfl⟩,
   ⟨rfl, (loadIfc_reentrancy_guard_only ⟨false, false⟩ demoFile LoadOutcome.success).2 rfl⟩⟩

/-- Claim C8: `loadIfcFromFile` is guarded and self-cleaning: a call during
a load returns with nothing changed and no library call; otherwise, whether
the library load resolves or throws, afterwards `isLoading` is false and the
overlay is hidden, with the error alert shown exactly on failure. -/
theorem loadIfc_guarded_and_self_cleaning (st : LoaderState) (f : IfcFile) (o : LoadOutcome) :
    (st.isLoading = true →
      loadIfcFromFile st f o = { state := st, loadCall := Option.none, alertShown := false } ∧
      (loadIfcFromFile st f o).state = st) ∧
    (st.isLoading = false →
      (loadIfcFromFile st f o).state.isLoading = false ∧
      (loadIfcFromFile st f o).state.overlayVisible = false ∧
      (o = LoadOutcome.failure → (loadIfcFromFile st f o).alertShown = true) ∧
      (o = LoadOutcome.success → (loadIfcFromFile st f o).alertShown = false)) := by
  constructor
  · intro h
    constructor <;> simp [loadIfcFromFile, h]
  · intro h
    refine ⟨by simp [loadIfcFromFile, h], by simp [loadIfcFromFile, h], ?_, ?_⟩ <;>
      rintro rfl <;> simp [loadIfcFromFile, h]

/-- Witness for the C8 theorem: a failed load starting from a clean state,
and a guarded call. -/
theorem loadIfc_guarded_and_self_cleaning_witness :
    ((⟨false, false⟩ : LoaderState).isLoading = false ∧
      (loadIfcFromFile ⟨false, false⟩ demoFile LoadOutcome.failure).state.isLoading = false ∧
      (loadIfcFromFile ⟨false, false⟩ demoFile LoadOutcome.failure).state.overlayVisible = false ∧
      (loadIfcFromFile ⟨false, false⟩ demoFile LoadOutcome.failure).alertShown = true) ∧
    ((⟨true, true⟩ : LoaderState).isLoading = true ∧
      loadIfcFromFile ⟨true, true⟩ demoFile LoadOutcome.success =
        { state := ⟨true, true⟩, loadCall := Option.none, alertShown := false }) := by
  have h1 := (loadIfc_guarded_and_self_cleaning ⟨false, false⟩ demoFile LoadOutcome.failure).2 rfl
  have h2 := (loadIfc_guarded_and_self_cleaning ⟨true, true⟩ demoFile LoadOutcome.success).1 rfl
  exact ⟨⟨rfl, h1.1, h1.2.1, h1.2.2.1 rfl⟩, ⟨rfl, h2.1⟩⟩

/-- Pointwise behaviour of `hideGroup`: an element is hidden when it is in
any of the group's id lists, otherwise untouched. -/
theorem hideGroup_apply (idLists : List (List Nat)) (v : Nat → Bool) (e : Nat) :
    hideGroup idLists v e = if e ∈ idLists.flatten then false else v e := by
  induction idLists generalizing v with
  | nil => simp [hideGroup]
  | cons ids rest ih =>
    show hideGroup rest (setVisible ids false v) e = _
    rw [ih]
    by_cases h1 : e ∈ ids <;> by_cases h2 : e ∈ rest.flatten <;>
      simp [setVisible, h1, h2]

/-- Pointwise behaviour of one hiding pass: an element is hidden when some
group whose filter is not checked contains it, otherwise untouched. -/
theorem hideUnchecked_apply (groups : GroupMap) (fs : List (String × Bool))
    (v : Nat → Bool) (e : Nat) :
    hideUnchecked groups fs v e =
      if ∃ g ∈ groups, lookupFilter fs g.1 ≠ Option.some true ∧ e ∈ g.2.flatten then false
      else v e := by
  induction groups generalizing v with
  | nil => simp [hideUnchecked]
  | cons g rest ih =>
    show hideUnchecked rest fs
        (if lookupFilter fs g.1 = Option.some true then v else hideGroup g.2 v) e = _
    rw [ih]
    by_cases hr : ∃ g2 ∈ rest, lookupFilter fs g2.1 ≠ Option.some true ∧ e ∈ g2.2.flatten
    · obtain ⟨g2, hg2, hprop⟩ := hr
      rw [if_pos ⟨g2, hg2, hprop⟩,
        if_pos ⟨g2, List.mem_cons_of_mem g hg2, hprop⟩]
    · rw [if_neg hr]
      by_cases hg : lookupFilter fs g.1 = Option.some true
      · rw [if_pos hg, if_neg ?hnone]
        case hnone =>
          rintro ⟨g2, hmem, hne, hin⟩
          rcases List.mem_cons.mp hmem with rfl | hmem2
          · exact hne hg
          · exact hr ⟨g2, hmem2, hne, hin⟩
      · rw [if_neg hg, hideGroup_apply]
        by_cases hm : e ∈ g.2.flatten
        · rw [if_pos hm, if_pos ⟨g, List.mem_cons_self g rest, hg, hm⟩]
        · rw [if_neg hm, if_neg ?hnone2]
          case hnone2 =>
            rintro ⟨g2, hmem, hne, hin⟩
            rcases List.mem_cons.mp hmem with rfl | hmem2
            · exact hm hin
            · exact hr ⟨g2, hmem2, hne, hin⟩

/-- Membership in the collected storey ids is membership in some storey
group. -/
theorem mem_allStoreyIds (storeys : GroupMap) (e : Nat) :
    e ∈ allStoreyIds storeys ↔ ∃ g ∈ storeys, e ∈ g.2.flatten := by
  simp only [allStoreyIds, List.mem_flatten, List.mem_map]
  aesop

/-- Pointwise behaviour of the show-all pass of `applyFilters`. -/
theorem showPass_apply (allIds : List Nat) (vis : Nat → Bool) (e : Nat) :
    (if allIds.length > 0 then setVisible allIds true vis else vis) e =
      if e ∈ allIds then true else vis e := by
  by_cases h : allIds.length > 0
  · rw [if_pos h]
    simp [setVisible]
  · rw [if_neg h]
    have hnil : allIds = [] := List.length_eq_zero.mp (Nat.eq_zero_of_not_pos h)
    simp [hnil]

/-- Full pointwise characterization of `applyFilters` with both
classifications present and a model loaded: category hiding wins, then
storey hiding, then the show-all pass over storey elements, and untouched
visibility for everything else. -/
theorem applyFilters_apply (gs gc : GroupMap) (fs fc : List (String × Bool))
    (vis : Nat → Bool) (e : Nat) :
    applyFilters true (Option.some gs) (Option.some gc) fs fc vis e =
      if ∃ g ∈ gc, lookupFilter fc g.1 ≠ Option.some true ∧ e ∈ g.2.flatten then false
      else if ∃ g ∈ gs, lookupFilter fs g.1 ≠ Option.some true ∧ e ∈ g.2.flatten then false
      else if ∃ g ∈ gs, e ∈ g.2.flatten then true
      else vis e := by
  show hideUnchecked gc fc
      (hideUnchecked gs fs
        (if (allStoreyIds gs).length > 0 then setVisible (allStoreyIds gs) true vis else vis)) e = _
  rw [hideUnchecked_apply, hideUnchecked_apply, showPass_apply]
  by_cases hc : ∃ g ∈ gc, lookupFilter fc g.1 ≠ Option.some true ∧ e ∈ g.2.flatten
  · rw [if_pos hc]
    rw [if_pos hc]
  · rw [if_neg hc]
    rw [if_neg hc]
    by_cases hs : ∃ g ∈ gs, lookupFilter fs g.1 ≠ Option.some true ∧ e ∈ g.2.flatten
    · rw [if_pos hs]
      rw [if_pos hs]
    · rw [if_neg hs]
      rw [if_neg hs]
      by_cases hm : ∃ g ∈ gs, e ∈ g.2.flatten
      · rw [if_pos ((mem_allStoreyIds gs e).mpr hm), if_pos hm]
      · rw [if_neg (fun h => hm ((mem_allStoreyIds gs e).mp h)), if_neg hm]

/-- Claim C9: with a model loaded and both classifications present, after
`applyFilters` an element of a (unique) storey group is visible iff that
storey's filter is checked and no category group containing it is unchecked;
an element of no storey group is never re-shown: it is visible only if it
already was and no unchecked category group contains it. -/
theorem applyFilters_postcondition (gs gc : GroupMap) (fs fc : List (String × Bool))
    (vis : Nat → Bool) (e : Nat) (g0 : String × List (List Nat)) :
    (g0 ∈ gs → e ∈ g0.2.flatten → (∀ g ∈ gs, e ∈ g.2.flatten → g = g0) →
      (applyFilters true (Option.some gs) (Option.some gc) fs fc vis e = true ↔
        lookupFilter fs g0.1 = Option.some true ∧
        ∀ g ∈ gc, e ∈ g.2.flatten → lookupFilter fc g.1 = Option.some true)) ∧
    (∀ e2, (¬ ∃ g ∈ gs, e2 ∈ g.2.flatten) →
      (applyFilters true (Option.some gs) (Option.some gc) fs fc vis e2 = true ↔
        vis e2 = true ∧
        ∀ g ∈ gc, e2 ∈ g.2.flatten → lookupFilter fc g.1 = Option.some true)) := by
  constructor
  · intro hg0 hmem huniq
    rw [applyFilters_apply]
    by_cases hc : ∃ g ∈ gc, lookupFilter fc g.1 ≠ Option.some true ∧ e ∈ g.2.flatten
    · rw [if_pos hc]
      constructor
      · intro h
        exact (Bool.false_ne_true h).elim
      · rintro ⟨_, h2⟩
        obtain ⟨g, hgm, hne, hin⟩ := hc
        exact absurd (h2 g hgm hin) hne
    · rw [if_neg hc]
      by_cases hs : ∃ g ∈ gs, lookupFilter fs g.1 ≠ Option.some true ∧ e ∈ g.2.flatten
      · rw [if_pos hs]
        constructor
        · intro h
          exact (Bool.false_ne_true h).elim
        · rintro ⟨h1, _⟩
          obtain ⟨g, hgm, hne, hin⟩ := hs
          rw [huniq g hgm hin] at hne
          exact absurd h1 hne
      · rw [if_neg hs, if_pos ⟨g0, hg0, hmem⟩]
        constructor
        · intro _
          refine ⟨?_, ?_⟩
          · by_contra hne
            exact hs ⟨g0, hg0, hne, hmem⟩
          · intro g hgm hin
            by_contra hne
            exact hc ⟨g, hgm, hne, hin⟩
        · intro _
          rfl
  · intro e2 hnot
    rw [applyFilters_apply]
    have hs2 : ¬ ∃ g ∈ gs, lookupFilter fs g.1 ≠ Option.some true ∧ e2 ∈ g.2.flatten := by
      rintro ⟨g, hgm, _, hin⟩
      exact hnot ⟨g, hgm, hin⟩
    by_cases hc2 : ∃ g ∈ gc, lookupFilter fc g.1 ≠ Option.some true ∧ e2 ∈ g.2.flatten
    · rw [if_pos hc2]
      constructor
      · intro h
        exact (Bool.false_ne_true h).elim
      · rintro ⟨_, h2⟩
        obtain ⟨g, hgm, hne, hin⟩ := hc2
        exact absurd (h2 g hgm hin) hne
    · rw [if_neg hc2, if_neg hs2, if_neg hnot]
      constructor
      · intro h
        refine ⟨h, ?_⟩
        intro g hgm hin
        by_contra hne
        exact hc2 ⟨g, hgm, hne, hin⟩
      · rintro ⟨h, _⟩
        exact h

/-- Witness for the C9 theorem: element 1 lives only in the checked storey
group `Terreo` and in no category group, element 7 lives in no storey
group. -/
theorem applyFilters_postcondition_witness :
    (("Terreo", [[1, 2]]) ∈ demoStoreys ∧
      (1 : Nat) ∈ (("Terreo", [[1, 2]]) : String × List (List Nat)).2.flatten ∧
      (∀ g ∈ demoStoreys, 1 ∈ g.2.flatten → g = ("Terreo", [[1, 2]])) ∧
      (applyFilters true (Option.some demoStoreys) (Option.some demoCategories)
          demoFs demoFc (fun _ => false) 1 = true ↔
        lookupFilter demoFs "Terreo" = Option.some true ∧
        ∀ g ∈ demoCategories, 1 ∈ g.2.flatten → lookupFilter demoFc g.1 = Option.some true)) ∧
    ((¬ ∃ g ∈ demoStoreys, 7 ∈ g.2.flatten) ∧
      (applyFilters true (Option.some demoStoreys) (Option.some demoCategories)
          demoFs demoFc (fun _ => false) 7 = true ↔
        false = true ∧
        ∀ g ∈ demoCategories, 7 ∈ g.2.flatten → lookupFilter demoFc g.1 = Option.some true)) :=
  ⟨⟨by decide, by decide, by decide,
    (applyFilters_postcondition demoStoreys demoCategories demoFs demoFc
        (fun _ => false) 1 ("Terreo", [[1, 2]])).1 (by decide) (by decide) (by decide)⟩,
   ⟨by decide,
    (applyFilters_postcondition demoStoreys demoCategories demoFs demoFc
        (fun _ => false) 7 ("Terreo", [[1, 2]])).2 7 (by decide)⟩⟩

/-- What the minimum-elevation fold returns: the accumulator or one of the
scanned elevations, and a lower bound on both. -/
theorem minFold_spec (data : List StoreyAttributes) :
    ∀ (acc : Option ℚ) (m : ℚ), data.foldl minElevStep acc = Option.some m →
      (acc = Option.some m ∨ ∃ a ∈ data, a.elevation = Option.some m) ∧
      (∀ x, acc = Option.some x → m ≤ x) ∧
      (∀ a ∈ data, ∀ e, a.elevation = Option.some e → m ≤ e) := by
  induction data with
  | nil =>
    intro acc m h
    have h0 : acc = Option.some m := h
    refine ⟨Or.inl h0, fun x hx => ?_, by simp⟩
    rw [h0] at hx
    exact le_of_eq (Option.some.inj hx)
  | cons a rest ih =>
    intro acc m h
    have h' : rest.foldl minElevStep (minElevStep acc a) = Option.some m := h
    obtain ⟨h1, h2, h3⟩ := ih (minElevStep acc a) m h'
    have hlift : ∀ b ∈ rest, b ∈ a :: rest := fun b hb => List.mem_cons_of_mem a hb
    cases ha : a.elevation with
    | none =>
      have hstep : minElevStep acc a = acc := by simp [minElevStep, ha]
      rw [hstep] at h1 h2
      refine ⟨h1.imp id (fun ⟨b, hb, he⟩ => ⟨b, hlift b hb, he⟩), h2, ?_⟩
      intro b hb e he
      rcases List.mem_cons.mp hb with rfl | hb2
      · rw [ha] at he
        cases he
      · exact h3 b hb2 e he
    | some e0 =>
      cases hacc : acc with
      | none =>
        have hstep : minElevStep acc a = Option.some e0 := by simp [minElevStep, ha, hacc]
        rw [hstep] at h1 h2
        have hme0 : m ≤ e0 := h2 e0 rfl
        refine ⟨Or.inr ?_, by simp [hacc], ?_⟩
        · rcases h1 with h1 | h1
          · exact ⟨a, List.mem_cons_self a rest, by rw [ha, Option.some.inj h1]⟩
          · obtain ⟨b, hb, he⟩ := h1
            exact ⟨b, hlift b hb, he⟩
        · intro b hb e he
          rcases List.mem_cons.mp hb with rfl | hb2
          · rw [ha] at he
            rw [← Option.some.inj he]
            exact hme0
          · exact h3 b hb2 e he
      | some m0 =>
        by_cases hlt : e0 < m0
        · have hstep : minElevStep acc a = Option.some e0 := by
            simp [minElevStep, ha, hacc, hlt]
          rw [hstep] at h1 h2
          have hme0 : m ≤ e0 := h2 e0 rfl
          have hmm0 : m ≤ m0 := le_trans hme0 (le_of_lt hlt)
          refine ⟨Or.inr ?_, ?_, ?_⟩
          · rcases h1 with h1 | h1
            · exact ⟨a, List.mem_cons_self a rest, by rw [ha, Option.some.inj h1]⟩
            · obtain ⟨b, hb, he⟩ := h1
              exact ⟨b, hlift b hb, he⟩
          · intro x hx
            rw [← Option.some.inj hx]
            exact hmm0
          · intro b hb e he
            rcases List.mem_cons.mp hb with rfl | hb2
            · rw [ha] at he
              rw [← Option.some.inj he]
              exact hme0
            · exact h3 b hb2 e he
        · have hstep : minElevStep acc a = Option.some m0 := by
            simp [minElevStep, ha, hacc, hlt]
          rw [hstep] at h1 h2
          have hmm0 : m ≤ m0 := h2 m0 rfl
          have hme0 : m ≤ e0 := le_trans hmm0 (not_lt.mp hlt)
          refine ⟨?_, ?_, ?_⟩
          · rcases h1 with h1 | h1
            · exact Or.inl h1
            · obtain ⟨b, hb, he⟩ := h1
              exact Or.inr ⟨b, hlift b hb, he⟩
          · intro x hx
            rw [← Option.some.inj hx]
            exact hmm0
          · intro b hb e he
            rcases List.mem_cons.mp hb with rfl | hb2
            · rw [ha] at he
              rw [← Option.some.inj he]
              exact hme0
            · exact h3 b hb2 e he

/-- Once the accumulator holds a value, the fold keeps holding a value. -/
theorem minFold_some_of_some (data : List StoreyAttributes) :
    ∀ x : ℚ, ∃ m, data.foldl minElevStep (Option.some x) = Option.some m := by
  induction data with
  | nil => exact fun x => ⟨x, rfl⟩
  | cons a rest ih =>
    intro x
    show ∃ m, rest.foldl minElevStep (minElevStep (Option.some x) a) = Option.some m
    cases ha : a.elevation with
    | none =>
      have hstep : minElevStep (Option.some x) a = Option.some x := by simp [minElevStep, ha]
      rw [hstep]
      exact ih x
    | some e0 =>
      by_cases hlt : e0 < x
      · have hstep : minElevStep (Option.some x) a = Option.some e0 := by
          simp [minElevStep, ha, hlt]
        rw [hstep]
        exact ih e0
      · have hstep : minElevStep (Option.some x) a = Option.some x := by
          simp [minElevStep, ha, hlt]
        rw [hstep]
        exact ih x

/-- Some storey record carrying an elevation makes the scan succeed. -/
theorem minElevationOf_isSome (data : List StoreyAttributes)
    (h : ∃ a ∈ data, ∃ e, a.elevation = Option.some e) :
    ∃ m, minElevationOf data = Option.some m := by
  induction data with
  | nil => exact absurd h (by simp)
  | cons a rest ih =>
    show ∃ m, rest.foldl minElevStep (minElevStep Option.none a) = Option.some m
    cases ha : a.elevation with
    | some e0 =>
      have hstep : minElevStep Option.none a = Option.some e0 := by simp [minElevStep, ha]
      rw [hstep]
      exact minFold_some_of_some rest e0
    | none =>
      have hstep : minElevStep Option.none a = Option.none := by simp [minElevStep, ha]
      rw [hstep]
      obtain ⟨b, hb, e, he⟩ := h
      rcases List.mem_cons.mp hb with rfl | hb2
      · rw [ha] at he
        cases he
      · exact ih ⟨b, hb2, e, he⟩

/-- Claim C10: `adjustModelToLevel0` leaves the model alone without storeys
or without any `Elevation`; with at least one elevation the scan returns the
minimum storey elevation `m`, the model's Y position becomes
`-(coordHeight + m)` with `m` recorded as `baseElevationOffset`, and
`getStoreyElevation` then returns a found storey's elevation minus that
offset, and 0 for a name that is not present. -/
theorem adjustModelToLevel0_normalization (ch : ℚ) (data : List StoreyAttributes)
    (st : ModelAdjustState) (name : String) (off : ℚ) :
    (data = [] → adjustModelToLevel0 ch data st = st) ∧
    (minElevationOf data = Option.none → adjustModelToLevel0 ch data st = st) ∧
    ((∃ a ∈ data, ∃ e, a.elevation = Option.some e) →
      ∃ m, minElevationOf data = Option.some m) ∧
    (∀ m, minElevationOf data = Option.some m →
      (∃ a ∈ data, a.elevation = Option.some m) ∧
      (∀ a ∈ data, ∀ e, a.elevation = Option.some e → m ≤ e) ∧
      (data ≠ [] →
        adjustModelToLevel0 ch data st =
          { positionY := -(ch + m), baseElevationOffset := m } ∧
        ∀ a, data.find? (fun a => a.name == Option.some name) = Option.some a →
          ∀ e, a.elevation = Option.some e →
            getStoreyElevation data
              (adjustModelToLevel0 ch data st).baseElevationOffset name = e - m)) ∧
    ((∀ a ∈ data, (a.name == Option.some name) = false) →
      getStoreyElevation data off name = 0) := by
  refine ⟨?_, ?_, minElevationOf_isSome data, ?_, ?_⟩
  · rintro rfl
    rfl
  · intro h
    cases data with
    | nil => rfl
    | cons a rest => simp [adjustModelToLevel0, h]
  · intro m hm
    obtain ⟨h1, _, h3⟩ := minFold_spec data Option.none m hm
    have hex : ∃ a ∈ data, a.elevation = Option.some m := by
      rcases h1 with h1 | h1
      · cases h1
      · exact h1
    refine ⟨hex, h3, ?_⟩
    intro hne
    have hadj : adjustModelToLevel0 ch data st =
        { positionY := -(ch + m), baseElevationOffset := m } := by
      cases data with
      | nil => exact absurd rfl hne
      | cons a rest => simp [adjustModelToLevel0, hm]
    refine ⟨hadj, ?_⟩
    intro b hfind e he
    rw [hadj]
    simp [getStoreyElevation, hfind, he]
  · intro hall
    have hfind : data.find? (fun a => a.name == Option.some name) = Option.none := by
      rw [List.find?_eq_none]
      intro a ha
      rw [hall a ha]
      simp
    simp [getStoreyElevation, hfind]

/-- Witness for the C10 theorem: storeys at elevations 3 and -2 (plus one
without an elevation); the minimum -2 is recorded, the position becomes
-(10 + -2), and `getStoreyElevation "Terreo"` returns -2 - -2. -/
theorem adjustModelToLevel0_normalization_witness :
    minElevationOf demoStoreyData = Option.some (-2) ∧
    demoStoreyData ≠ [] ∧
    demoStoreyData.find? (fun a => a.name == Option.some "Terreo") =
      Option.some ⟨Option.some "Terreo", Option.some (-2)⟩ ∧
    adjustModelToLevel0 10 demoStoreyData ⟨0, 0⟩ =
      { positionY := -(10 + (-2)), baseElevationOffset := (-2) } ∧
    getStoreyElevation demoStoreyData
      (adjustModelToLevel0 10 demoStoreyData ⟨0, 0⟩).baseElevationOffset "Terreo" =
      (-2) - (-2) := by
  have hm : minElevationOf demoStoreyData = Option.some (-2) := by
    norm_num [minElevationOf, demoStoreyData, minElevStep]
  have hne : demoStoreyData ≠ [] := by simp [demoStoreyData]
  have hfind : demoStoreyData.find? (fun a => a.name == Option.some "Terreo") =
      Option.some ⟨Option.some "Terreo", Option.some (-2)⟩ := by
    norm_num [demoStoreyData]
    decide
  have hmain :=
    ((adjustModelToLevel0_normalization 10 demoStoreyData ⟨0, 0⟩ "Terreo" 0).2.2.2.1
      (-2) hm).2.2 hne
  exact ⟨hm, hne, hfind, hmain.1,
    hmain.2 ⟨Option.some "Terreo", Option.some (-2)⟩ hfind (-2) rfl⟩

end IfcViewer
